import Mathlib

/-!
Verification of the Bank OCR kata implementation (Rust sources
`src/checksum.rs`, `src/parse.rs`, `src/process.rs`) against its
natural-language specification.  The Rust code is shallowly embedded:
strings are `List Char`, `u8` register cells are `Nat` (all operations
stay below 256, so no wrap-around can occur), and functions that can
panic (`assert!` / `panic!`) return `Option`, with `none` modelling the
panic.
-/

set_option maxRecDepth 8192

namespace BankOcr

/-- Model of Rust `char::is_numeric` restricted to the inputs this
development considers.  On the ASCII range `char::is_numeric` holds
exactly for the digits `'0'..'9'`, which is Lean's `Char.isDigit`; all
account-number inputs considered in the theorems below are ASCII. -/
def rust_is_numeric_char (c : Char) : Bool := c.isDigit

/-- Embedding of `checksum.rs::is_numeric`: every character of the
string is numeric. -/
def is_numeric (s : List Char) : Bool := s.all rust_is_numeric_char

/-- Model of Rust `char::to_digit(10)`: `some` of the digit value for
`'0'..'9'`, `none` otherwise (radix 10 accepts only ASCII digits). -/
def to_digit10 (c : Char) : Option Nat :=
  if c.isDigit then some (c.toNat - 48) else none

/-- The `for ch in account_number.chars().rev()` loop of
`is_checksum_valid`: accumulates `digit * coefficient` over the given
(already reversed) character list, incrementing the coefficient;
returns `none` when some character has no digit value (the loop's
`return false` path is mapped back to `false` by the caller). -/
def checksum_loop : List Char → Nat → Nat → Option Nat
  | [], _, acc => some acc
  | ch :: rest, coefficient, acc =>
    match to_digit10 ch with
    | some digit => checksum_loop rest (coefficient + 1) (acc + digit * coefficient)
    | none => none

/-- Embedding of `checksum.rs::is_checksum_valid`.  The leading
`assert!(is_numeric(..))` is modelled by returning `none` (panic);
otherwise the function returns `some` of the boolean the Rust code
returns. -/
def is_checksum_valid (account_number : List Char) : Option Bool :=
  if is_numeric account_number = false then none
  else if account_number.length ≠ 9 then some false
  else
    match checksum_loop account_number.reverse 1 0 with
    | some checksum => some (checksum % 11 = 0)
    | none => some false

/-- The weighted sum described by the spec, on an already reversed
string: the first character of the reversed list has weight `w`, the
weight increasing by 1 per step. -/
def spec_weighted_sum_rev : List Char → Nat → Nat
  | [], _ => 0
  | c :: rest, w => (c.toNat - 48) * w + spec_weighted_sum_rev rest (w + 1)

/-- The spec's checksum quantity: digits weighted 1,2,3,… from the
rightmost position leftward. -/
def spec_weighted_sum (s : List Char) : Nat := spec_weighted_sum_rev s.reverse 1

/-- Embedding of `checksum.rs::alternate_digits`: digits reachable by a
single-segment toggle; `none` models the `panic!` on a non-digit. -/
def alternate_digits (ch : Char) : Option (List Char) :=
  if ch = '0' then some ['8']
  else if ch = '1' then some ['7']
  else if ch = '2' then some []
  else if ch = '3' then some ['9']
  else if ch = '4' then some []
  else if ch = '5' then some ['6', '9']
  else if ch = '6' then some ['5', '8']
  else if ch = '7' then some ['1']
  else if ch = '8' then some ['0', '6', '9']
  else if ch = '9' then some ['3', '5', '8']
  else none

/-- Inner loop of `find_adjacent`: for each alternate digit of position
`n`, substitute it into the buffer and keep the candidate when its
checksum is valid.  (`str::from_utf8` always succeeds on the ASCII
buffer, so its `if let Ok` has no failure path in the model.)  A panic
inside `is_checksum_valid` propagates as `none`. -/
def subst_candidates (buffer : List Char) (n : Nat) : List Char → Option (List (List Char))
  | [] => some []
  | alt :: rest =>
    let candidate := buffer.set n alt
    match is_checksum_valid candidate with
    | none => none
    | some true => (subst_candidates buffer n rest).map (fun ms => candidate :: ms)
    | some false => subst_candidates buffer n rest

/-- Outer loop of `find_adjacent` over the digit positions, collecting
the valid candidates of every position in order. -/
def find_adjacent_go (buffer : List Char) : List Nat → Option (List (List Char))
  | [] => some []
  | n :: rest =>
    match alternate_digits (buffer.getD n ' ') with
    | none => none
    | some alts =>
      match subst_candidates buffer n alts with
      | none => none
      | some here =>
        match find_adjacent_go buffer rest with
        | none => none
        | some later => some (here ++ later)

/-- Model of Rust `str::is_ascii` per character: the code point is at
most 127. -/
def rust_is_ascii (c : Char) : Bool := c.toNat ≤ 127

/-- Embedding of `checksum.rs::find_adjacent`.  The two `assert!`s
(length exactly 9, ASCII only) are modelled by `none`. -/
def find_adjacent (account_number : List Char) : Option (List (List Char)) :=
  if account_number.length = 9 ∧ account_number.all rust_is_ascii then
    find_adjacent_go account_number (List.range 9)
  else none

/-- The alternate-digit table exactly as the spec writes it, as a total
function (spec side of the refinement for `find_adjacent`). -/
def spec_alt_table (ch : Char) : List Char :=
  if ch = '0' then ['8']
  else if ch = '1' then ['7']
  else if ch = '3' then ['9']
  else if ch = '5' then ['6', '9']
  else if ch = '6' then ['5', '8']
  else if ch = '7' then ['1']
  else if ch = '8' then ['0', '6', '9']
  else if ch = '9' then ['3', '5', '8']
  else []

/-- The candidate list as the spec describes it: for each of the 9
positions left to right, substitute each table alternate in table
order, keeping a candidate exactly when `is_checksum_valid` holds for
it; no deduplication. -/
def spec_find_adjacent (s : List Char) : List (List Char) :=
  (List.range 9).flatMap (fun n =>
    ((spec_alt_table (s.getD n ' ')).filter (fun alt =>
      match is_checksum_valid (s.set n alt) with
      | some true => true
      | _ => false)).map (fun alt => s.set n alt))

/-- Model of Rust `char::is_whitespace` (the Unicode `White_Space`
property, complete list of code points). -/
def rust_is_whitespace (c : Char) : Bool :=
  let n := c.toNat
  n == 0x20 || (Nat.ble 0x09 n && Nat.ble n 0x0d) || n == 0x85 || n == 0xa0 ||
  n == 0x1680 || (Nat.ble 0x2000 n && Nat.ble n 0x200a) || n == 0x2028 ||
  n == 0x2029 || n == 0x202f || n == 0x205f || n == 0x3000

/-- Embedding of `parse.rs::on_char`: the character denoting an "on"
segment at an intra-cell position, `'\x00'` when the position must be
blank.  The Rust scrutinee is `row << 4 | col`. -/
def on_char (row col : Nat) : Char :=
  let key := row <<< 4 ||| col
  if key = 0x00 then '\x00'
  else if key = 0x01 then '_'
  else if key = 0x02 then '\x00'
  else if key = 0x10 then '|'
  else if key = 0x11 then '_'
  else if key = 0x12 then '|'
  else if key = 0x20 then '|'
  else if key = 0x21 then '_'
  else if key = 0x22 then '|'
  else '\x00'

/-- Embedding of `parse.rs::bit_pos`: register bit index of an
intra-cell position (7 for positions that never hold a segment). -/
def bit_pos (row col : Nat) : Nat :=
  let key := row <<< 4 ||| col
  if key = 0x01 then 0
  else if key = 0x10 then 1
  else if key = 0x11 then 2
  else if key = 0x12 then 3
  else if key = 0x20 then 4
  else if key = 0x21 then 5
  else if key = 0x22 then 6
  else 7

/-- Embedding of `parse.rs::read_register_digit`: the exact 10-pattern
lookup table; every other value yields the illegible sentinel `'?'`. -/
def read_register_digit (reg_element : Nat) : Char :=
  if reg_element = 0b01111011 then '0'
  else if reg_element = 0b01001000 then '1'
  else if reg_element = 0b00111101 then '2'
  else if reg_element = 0b01101101 then '3'
  else if reg_element = 0b01001110 then '4'
  else if reg_element = 0b01100111 then '5'
  else if reg_element = 0b01110111 then '6'
  else if reg_element = 0b01001001 then '7'
  else if reg_element = 0b01111111 then '8'
  else if reg_element = 0b01101111 then '9'
  else '?'

/-- Embedding of `parse.rs::find_register_digit_close_matches`: flip
each of bits 0..=6 and collect every decode that is not illegible, in
ascending bit order. -/
def find_register_digit_close_matches (reg_element : Nat) : List Char :=
  (List.range 7).filterMap (fun n =>
    let close_match := read_register_digit (Nat.xor reg_element (1 <<< n))
    if close_match ≠ '?' then some close_match else none)

/-- State of `parse.rs::Parser`: the 9-slot segment register (a `Nat`
per `u8` cell), the 1-based line counter, and the error-skip flag. -/
structure Parser where
  register : List Nat
  line_number : Nat
  skip : Bool
  deriving DecidableEq, Repr

/-- Embedding of `Parser::new`. -/
def Parser.new : Parser := ⟨List.replicate 9 0, 0, false⟩

/-- Embedding of `parse.rs::Status`. -/
inductive Status where
  | Success (account_number : List Char)
  | BadDigits (account_number : List Char) (alternates : List (List Char))
  | Error (message : String) (line_number : Nat) (col : Nat) (row : Nat)
  | Incomplete
  deriving DecidableEq, Repr

/-- The character-scanning loop of `Parser::process_line`: walks the
line from column `col`, setting register bits for "on" characters, and
stops at the first violation, returning the register as mutated so far
together with the error message and column (or `none` when the whole
line scans cleanly). -/
def scan (row : Nat) : List Char → Nat → List Nat → List Nat × Option (String × Nat)
  | [], _, reg => (reg, none)
  | ch :: rest, col, reg =>
    let pos := col % 3
    let dig := col / 3
    let onc := on_char row pos
    let bp := bit_pos row pos
    if rust_is_whitespace ch = false ∧ dig > 8 then
      (reg, some ("Input line is too long.", col))
    else if onc = '\x00' then
      if ch ≠ ' ' then
        (reg, some ("Expected space but found '" ++ String.singleton ch ++ "'.", col))
      else scan row rest (col + 1) reg
    else if ch = onc then
      scan row rest (col + 1) (reg.set dig (Nat.lor (reg.getD dig 0) (1 <<< bp)))
    else if ch ≠ ' ' then
      (reg, some ("Expected space or '" ++ String.singleton onc ++ "' but found '"
        ++ String.singleton ch ++ "'.", col))
    else scan row rest (col + 1) reg

/-- Embedding of `Parser::read_register`: decode the 9 slots; with no
illegible slot report success, with exactly one offer the close-match
substitutions at that slot, with two or more offer no alternates. -/
def read_register (reg : List Nat) : Bool × List Char × List (List Char) :=
  let buffer := (List.range 9).map (fun i => read_register_digit (reg.getD i 0))
  let bad := (List.range 9).filter (fun i => read_register_digit (reg.getD i 0) == '?')
  match bad with
  | [] => (true, buffer, [])
  | [i] =>
    (false, buffer,
      (find_register_digit_close_matches (reg.getD i 0)).map (fun d => buffer.set i d))
  | _ => (false, buffer, [])

/-- Embedding of `Parser::process_line`: bump the line counter, clear
register and skip flag on row 0, short-circuit while skipping, scan the
line, and on the separator row read the register out. -/
def process_line (p : Parser) (line : List Char) : Parser × Status :=
  let ln := p.line_number + 1
  let row := (ln - 1) % 4
  let skip0 := if row = 0 then false else p.skip
  let reg0 := if row = 0 then List.replicate 9 0 else p.register
  if row ≠ 0 ∧ p.skip then
    ({ register := p.register, line_number := ln, skip := p.skip }, Status.Incomplete)
  else
    match scan row line 0 reg0 with
    | (reg1, some (msg, col)) =>
      ({ register := reg1, line_number := ln, skip := true }, Status.Error msg ln col row)
    | (reg1, none) =>
      if row < 3 then
        ({ register := reg1, line_number := ln, skip := skip0 }, Status.Incomplete)
      else
        let r := read_register reg1
        ({ register := reg1, line_number := ln, skip := skip0 },
          if r.1 then Status.Success r.2.1 else Status.BadDigits r.2.1 r.2.2)

/-- Run the parser over a list of lines, collecting the statuses. -/
def run_lines : Parser → List (List Char) → Parser × List Status
  | p, [] => (p, [])
  | p, l :: ls =>
    let r := process_line p l
    let rest := run_lines r.1 ls
    (rest.1, r.2 :: rest.2)

/-- Entry-level result type, embedding of `process.rs::Result`. -/
inductive PResult where
  | Success (account_number : List Char) (line_number : Nat)
  | BadChecksum (account_number : List Char) (alternates : List (List Char)) (line_number : Nat)
  | BadDigits (account_number : List Char) (alternates : List (List Char)) (line_number : Nat)
  | Error (message : String) (line_number : Nat) (col : Nat) (row : Nat)
  deriving DecidableEq, Repr

/-- Outcome of one `Processor::next` call: either a result is emitted
together with the parser state and remaining lines, or the line stream
is exhausted, or an internal `assert!` fired. -/
inductive ProcStep where
  | emit (r : PResult) (p : Parser) (rest : List (List Char))
  | done
  | panicked
  deriving DecidableEq, Repr

/-- The `alternates.into_iter().filter(|alt| is_checksum_valid(alt))`
of `Processor::next`, with panic propagation. -/
def filter_valid : List (List Char) → Option (List (List Char))
  | [] => some []
  | a :: rest =>
    match is_checksum_valid a with
    | none => none
    | some true => (filter_valid rest).map (fun l => a :: l)
    | some false => filter_valid rest

/-- Embedding of `Processor::next` (`process.rs`): pull lines until the
parser reports a non-`Incomplete` status and classify it, attaching
`parser.get_line_number()` to every entry-level result. -/
def processor_next (p : Parser) : List (List Char) → ProcStep
  | [] => ProcStep.done
  | line :: rest =>
    let r := process_line p line
    match r.2 with
    | Status.Incomplete => processor_next r.1 rest
    | Status.Success acct =>
      match is_checksum_valid acct with
      | none => ProcStep.panicked
      | some true => ProcStep.emit (PResult.Success acct r.1.line_number) r.1 rest
      | some false =>
        match find_adjacent acct with
        | none => ProcStep.panicked
        | some alts => ProcStep.emit (PResult.BadChecksum acct alts r.1.line_number) r.1 rest
    | Status.BadDigits acct alts =>
      match filter_valid alts with
      | none => ProcStep.panicked
      | some f => ProcStep.emit (PResult.BadDigits acct f r.1.line_number) r.1 rest
    | Status.Error m ln c rw => ProcStep.emit (PResult.Error m ln c rw) r.1 rest

/-- Canonical 3-row glyph of each digit, from the kata's reference
rendering (three 3-character rows per digit). -/
def glyph (d : Char) : List (List Char) :=
  if d = '0' then [[' ', '_', ' '], ['|', ' ', '|'], ['|', '_', '|']]
  else if d = '1' then [[' ', ' ', ' '], [' ', ' ', '|'], [' ', ' ', '|']]
  else if d = '2' then [[' ', '_', ' '], [' ', '_', '|'], ['|', '_', ' ']]
  else if d = '3' then [[' ', '_', ' '], [' ', '_', '|'], [' ', '_', '|']]
  else if d = '4' then [[' ', ' ', ' '], ['|', '_', '|'], [' ', ' ', '|']]
  else if d = '5' then [[' ', '_', ' '], ['|', '_', ' '], [' ', '_', '|']]
  else if d = '6' then [[' ', '_', ' '], ['|', '_', ' '], ['|', '_', '|']]
  else if d = '7' then [[' ', '_', ' '], [' ', ' ', '|'], [' ', ' ', '|']]
  else if d = '8' then [[' ', '_', ' '], ['|', '_', '|'], ['|', '_', '|']]
  else if d = '9' then [[' ', '_', ' '], ['|', '_', '|'], [' ', '_', '|']]
  else []

/-- The four physical lines of an entry holding the digit `d` nine
times: each glyph row repeated 9 times, then the blank separator. -/
def entry_lines (d : Char) : List (List Char) :=
  (glyph d).map (fun cell => (List.replicate 9 cell).flatten) ++ [[]]

/-- The ten digit characters. -/
def digit_chars : List Char := ['0', '1', '2', '3', '4', '5', '6', '7', '8', '9']

/-- A character is valid for its grid position when it is a space or
the position's "on" character. -/
def valid_at (row col : Nat) (ch : Char) : Prop :=
  ch = ' ' ∨ (on_char row (col % 3) ≠ '\x00' ∧ ch = on_char row (col % 3))

instance valid_at_decidable (row col : Nat) (ch : Char) : Decidable (valid_at row col ch) := by
  unfold valid_at
  infer_instance

theorem checksum_loop_eq_spec (cs : List Char) (w acc : Nat)
    (h : cs.all rust_is_numeric_char = true) :
    checksum_loop cs w acc = some (acc + spec_weighted_sum_rev cs w) := by
  induction cs generalizing w acc with
  | nil => simp [checksum_loop, spec_weighted_sum_rev]
  | cons c rest ih =>
    simp only [List.all_cons, Bool.and_eq_true] at h
    have hc : c.isDigit = true := h.1
    simp only [checksum_loop, to_digit10, hc, if_true]
    rw [ih _ _ h.2]
    simp [spec_weighted_sum_rev]
    ring_nf

/-- For an all-digit string, `is_checksum_valid` does not panic: it
returns `some` of the length test combined with the mod-11 test. -/
theorem is_checksum_valid_digits (s : List Char)
    (h : s.all Char.isDigit = true) :
    is_checksum_valid s =
      some (if s.length = 9 then decide (spec_weighted_sum s % 11 = 0) else false) := by
  have hnum : is_numeric s = true := h
  by_cases hlen : s.length = 9
  · have hrev : s.reverse.all rust_is_numeric_char = true := by
      simpa [List.all_reverse] using h
    simp only [is_checksum_valid, hnum, spec_weighted_sum, hlen]
    rw [checksum_loop_eq_spec _ _ _ hrev]
    simp
  · simp [is_checksum_valid, hnum, hlen]

theorem digit_mem (c : Char) (h : c.isDigit = true) : c ∈ digit_chars := by
  have h1 : 48 ≤ c.toNat ∧ c.toNat ≤ 57 := by
    simp [Char.isDigit] at h
    exact ⟨h.1, h.2⟩
  have h2 : c = Char.ofNat c.toNat := (Char.ofNat_toNat c).symm
  obtain ⟨hl, hr⟩ := h1
  interval_cases hn : c.toNat <;> (rw [h2] ; decide)

/-- C7: the segment-pattern decoder is total (it is a Lean function on
all of `Nat`, hence on the whole `u8` domain, with no panic path):
exactly 10 of the 128 seven-bit patterns decode to a digit, each digit
having exactly one pattern, every decode is a digit or `'?'`, and every
value with bit 7 set (the other half of the `u8` domain) decodes to
`'?'`. -/
theorem read_register_digit_classification :
    ((List.range 128).filter (fun r => decide (read_register_digit r ≠ '?'))).length = 10 ∧
    ((List.range 128).all (fun r =>
      decide (read_register_digit r = '?' ∨ read_register_digit r ∈ digit_chars)) = true) ∧
    (digit_chars.all (fun d =>
      ((List.range 128).filter (fun r => read_register_digit r == d)).length == 1) = true) ∧
    ((List.range 256).all (fun r =>
      (read_register_digit r == '?') || decide (r < 128)) = true) := by
  refine ⟨by decide, by decide, by decide, by decide⟩

/-- C2: on every 9-character ASCII-digit string, `is_checksum_valid`
returns exactly the mod-11 test of the spec's weighted sum (rightmost
digit weight 1, increasing leftward), and in particular it accepts
"000000000", "500000301", "135802539" and rejects "000000001". -/
theorem is_checksum_valid_weighted_sum :
    (∀ s : List Char, s.length = 9 → s.all Char.isDigit = true →
      is_checksum_valid s = some (decide (spec_weighted_sum s % 11 = 0))) ∧
    is_checksum_valid (String.toList "000000000") = some true ∧
    is_checksum_valid (String.toList "500000301") = some true ∧
    is_checksum_valid (String.toList "135802539") = some true ∧
    is_checksum_valid (String.toList "000000001") = some false := by
  refine ⟨fun s hlen hdig => ?_, by decide, by decide, by decide, by decide⟩
  rw [is_checksum_valid_digits s hdig, hlen]
  simp

/-- Witness for C2, at the concrete input "000000001". -/
theorem is_checksum_valid_weighted_sum_witness :
    is_checksum_valid (String.toList "000000001") =
      some (decide (spec_weighted_sum (String.toList "000000001") % 11 = 0)) :=
  is_checksum_valid_weighted_sum.1 (String.toList "000000001") (by decide) (by decide)

/-- C5 counterexample: the claim says malformed input never panics, but
on a string containing a non-digit character `is_checksum_valid` hits
the `assert!(is_numeric(..))` (modelled as `none`) instead of
returning `false`. -/
theorem is_checksum_valid_nondigit_panics :
    is_checksum_valid (String.toList "abcdefghi") = none ∧
    (String.toList "abcdefghi").length = 9 := by
  refine ⟨by decide, by decide⟩

/-- C5 amended: an all-numeric string of the wrong length yields
`false` without panicking, while an ASCII string containing any
non-digit character fails the precondition assertion (panics) rather
than returning a boolean. -/
theorem is_checksum_valid_malformed :
    (∀ s : List Char, s.all Char.isDigit = true → s.length ≠ 9 →
      is_checksum_valid s = some false) ∧
    (∀ s : List Char, s.all rust_is_ascii = true → s.all Char.isDigit = false →
      is_checksum_valid s = none) := by
  constructor
  · intro s hdig hlen
    rw [is_checksum_valid_digits s hdig]
    simp [hlen]
  · intro s _ hdig
    have hnum : is_numeric s = false := hdig
    simp [is_checksum_valid, hnum]

/-- Witness for the amended C5: a short numeric string returns `false`,
an ASCII string with a letter panics. -/
theorem is_checksum_valid_malformed_witness :
    is_checksum_valid (String.toList "12") = some false ∧
    is_checksum_valid (String.toList "12a456789") = none :=
  ⟨is_checksum_valid_malformed.1 (String.toList "12") (by decide) (by decide),
   is_checksum_valid_malformed.2 (String.toList "12a456789") (by decide) (by decide)⟩

/-- C8: for every digit, parsing the canonical glyph rendering repeated
nine times followed by the blank separator yields three `Incomplete`
statuses and then `Success` on the nine-fold digit string. -/
theorem glyph_round_trip :
    ∀ d ∈ digit_chars,
      (run_lines Parser.new (entry_lines d)).2 =
        [Status.Incomplete, Status.Incomplete, Status.Incomplete,
         Status.Success (List.replicate 9 d)] := by
  intro d hd
  fin_cases hd <;> decide

/-- Witness for C8, at the digit `'0'`. -/
theorem glyph_round_trip_witness :
    (run_lines Parser.new (entry_lines '0')).2 =
      [Status.Incomplete, Status.Incomplete, Status.Incomplete,
       Status.Success (List.replicate 9 '0')] :=
  glyph_round_trip '0' (by decide)

/-- C4: once the skip flag is set, every line whose row is not 0 is
answered `Incomplete` with the parser state untouched except the line
counter (no scanning), and on the next row-0 line the register and the
skip flag are cleared, so the result does not depend on the discarded
entry's register or skip state. -/
theorem skip_resynchronization :
    (∀ (p : Parser) (line : List Char), p.skip = true → p.line_number % 4 ≠ 0 →
      process_line p line =
        ({ register := p.register, line_number := p.line_number + 1, skip := true },
          Status.Incomplete)) ∧
    (∀ (reg reg' : List Nat) (s s' : Bool) (ln : Nat) (line : List Char), ln % 4 = 0 →
      process_line ⟨reg, ln, s⟩ line = process_line ⟨reg', ln, s'⟩ line) := by
  constructor
  · intro p line hskip hrow
    simp [process_line, hrow, hskip]
  · intro reg reg' s s' ln line hln
    simp [process_line, hln]

/-- Witness for C4: a skipping parser ignores a row-1 line, and on a
row-0 line two parsers with different discarded state agree. -/
theorem skip_resynchronization_witness :
    process_line ⟨List.replicate 9 0, 1, true⟩ (String.toList "x") =
      ({ register := List.replicate 9 0, line_number := 2, skip := true },
        Status.Incomplete) ∧
    process_line ⟨[1, 2, 3, 4, 5, 6, 7, 8, 9], 4, true⟩ (String.toList " _ ") =
      process_line ⟨List.replicate 9 0, 4, false⟩ (String.toList " _ ") :=
  ⟨skip_resynchronization.1 ⟨List.replicate 9 0, 1, true⟩ (String.toList "x")
      (by decide) (by decide),
   skip_resynchronization.2 [1, 2, 3, 4, 5, 6, 7, 8, 9] (List.replicate 9 0)
      true false 4 (String.toList " _ ") (by decide)⟩

theorem on_char_cases (row col : Nat) :
    on_char row col = '\x00' ∨ on_char row col = '_' ∨ on_char row col = '|' := by
  unfold on_char
  dsimp only
  split_ifs <;> simp

theorem msg_ne_too_long (pre suf : String) (ch : Char)
    (h : pre.length + 1 + suf.length ≠ 23) :
    pre ++ String.singleton ch ++ suf ≠ "Input line is too long." := by
  intro he
  have hl := congrArg String.length he
  simp [String.length_append] at hl
  have : ("Input line is too long." : String).length = 23 := by decide
  omega

theorem scan_too_long (row : Nat) (cs : List Char) (col : Nat) (reg : List Nat) (ch : Char)
    (hws : rust_is_whitespace ch = false) (hcol : col / 3 > 8) :
    scan row (ch :: cs) col reg = (reg, some ("Input line is too long.", col)) := by
  simp [scan, hws, hcol]

theorem scan_ws_step (row : Nat) (cs : List Char) (col : Nat) (reg : List Nat) (ch : Char)
    (hws : rust_is_whitespace ch = true) :
    (ch = ' ' → scan row (ch :: cs) col reg = scan row cs (col + 1) reg) ∧
    (ch ≠ ' ' → ∃ m, scan row (ch :: cs) col reg = (reg, some (m, col)) ∧
      m ≠ "Input line is too long.") := by
  constructor
  · intro hsp
    subst hsp
    rcases on_char_cases row (col % 3) with h | h | h <;>
      simp +decide [scan, h]
  · intro hsp
    have hons : ∀ o : Char, o = '_' ∨ o = '|' → ch ≠ o := by
      rintro o (ho | ho) he <;> (subst ho; subst he; simp [rust_is_whitespace] at hws)
    rcases on_char_cases row (col % 3) with h | h | h
    · refine ⟨"Expected space but found '" ++ String.singleton ch ++ "'.", ?_, ?_⟩
      · simp +decide [scan, h, hsp, hws]
      · exact msg_ne_too_long _ _ _ (by decide)
    · refine ⟨"Expected space or '" ++ String.singleton '_' ++ "' but found '"
        ++ String.singleton ch ++ "'.", ?_, ?_⟩
      · have hne : ch ≠ '_' := hons _ (Or.inl rfl)
        simp +decide [scan, h, hsp, hws, hne]
      · intro he
        have hl := congrArg String.length he
        simp [String.length_append] at hl
        revert hl
        decide
    · refine ⟨"Expected space or '" ++ String.singleton '|' ++ "' but found '"
        ++ String.singleton ch ++ "'.", ?_, ?_⟩
      · have hne : ch ≠ '|' := hons _ (Or.inr rfl)
        simp +decide [scan, h, hsp, hws, hne]
      · intro he
        have hl := congrArg String.length he
        simp [String.length_append] at hl
        revert hl
        decide

theorem process_line_error (p : Parser) (line : List Char) (msg : String) (c : Nat)
    (hnoskip : p.line_number % 4 = 0 ∨ p.skip = false)
    (hscan : (scan (p.line_number % 4) line 0
      (if p.line_number % 4 = 0 then List.replicate 9 0 else p.register)).2 = some (msg, c)) :
    process_line p line =
      ({ register := (scan (p.line_number % 4) line 0
          (if p.line_number % 4 = 0 then List.replicate 9 0 else p.register)).1,
         line_number := p.line_number + 1, skip := true },
        Status.Error msg (p.line_number + 1) c (p.line_number % 4)) := by
  rcases hsc : scan (p.line_number % 4) line 0
      (if p.line_number % 4 = 0 then List.replicate 9 0 else p.register) with ⟨reg1, o⟩
  rw [hsc] at hscan
  simp only at hscan
  subst hscan
  by_cases hrow : p.line_number % 4 = 0
  · simp [process_line, hrow] at hsc ⊢
    rw [hsc]
  · simp [process_line, hrow] at hsc ⊢
    rcases hnoskip with h | h
    · exact absurd h hrow
    · simp [h, hsc]

/-- C6: a non-whitespace character in a column whose digit index
exceeds 8 stops the scan with exactly "Input line is too long." at
that column; a whitespace character there is not treated as too long
(a space is consumed, any other whitespace gives a different,
expected-space error); and when the scan errors, `process_line` sets
the skip flag and returns that error at that column. -/
theorem too_long_only_nonwhitespace :
    (∀ (row : Nat) (cs : List Char) (col : Nat) (reg : List Nat) (ch : Char),
      rust_is_whitespace ch = false → col / 3 > 8 →
      scan row (ch :: cs) col reg = (reg, some ("Input line is too long.", col))) ∧
    (∀ (row : Nat) (cs : List Char) (col : Nat) (reg : List Nat) (ch : Char),
      rust_is_whitespace ch = true →
      (ch = ' ' → scan row (ch :: cs) col reg = scan row cs (col + 1) reg) ∧
      (ch ≠ ' ' → ∃ m, scan row (ch :: cs) col reg = (reg, some (m, col)) ∧
        m ≠ "Input line is too long.")) ∧
    (∀ (p : Parser) (line : List Char) (msg : String) (c : Nat),
      p.line_number % 4 = 0 ∨ p.skip = false →
      (scan (p.line_number % 4) line 0
        (if p.line_number % 4 = 0 then List.replicate 9 0 else p.register)).2 = some (msg, c) →
      process_line p line =
        ({ register := (scan (p.line_number % 4) line 0
            (if p.line_number % 4 = 0 then List.replicate 9 0 else p.register)).1,
           line_number := p.line_number + 1, skip := true },
          Status.Error msg (p.line_number + 1) c (p.line_number % 4))) :=
  ⟨scan_too_long, scan_ws_step, process_line_error⟩

/-- Witness for C6: a pipe at column 27 (digit cell 10) is rejected as
too long; a space there is skipped. -/
theorem too_long_only_nonwhitespace_witness :
    scan 0 ['|'] 27 (List.replicate 9 0) =
      (List.replicate 9 0, some ("Input line is too long.", 27)) ∧
    scan 0 [' '] 27 (List.replicate 9 0) = scan 0 [] 28 (List.replicate 9 0) :=
  ⟨too_long_only_nonwhitespace.1 0 [] 27 (List.replicate 9 0) '|' (by decide) (by decide),
   (too_long_only_nonwhitespace.2.1 0 [] 27 (List.replicate 9 0) ' ' (by decide)).1 rfl⟩

theorem scan_no_error (row : Nat) (line : List Char) :
    ∀ (col : Nat) (reg : List Nat),
      col + line.length ≤ 27 →
      (∀ i, i < line.length → valid_at row (col + i) (line.getD i ' ')) →
      (scan row line col reg).2 = none := by
  induction line with
  | nil =>
    intro col reg _ _
    simp [scan]
  | cons ch rest ih =>
    intro col reg hlen hvalid
    have hdig : ¬ col / 3 > 8 := by
      simp only [List.length_cons] at hlen
      omega
    have hshift : ∀ i, i < rest.length → valid_at row (col + 1 + i) (rest.getD i ' ') := by
      intro i hi
      have hh := hvalid (i + 1) (by simp; omega)
      have he : col + (i + 1) = col + 1 + i := by omega
      rw [he] at hh
      simpa using hh
    have hrec := ih (col + 1) reg (by simp only [List.length_cons] at hlen; omega) hshift
    have h0 := hvalid 0 (by simp)
    simp only [Nat.add_zero, List.getD_cons_zero] at h0
    rcases h0 with hsp | ⟨hon, heq⟩
    · subst hsp
      rcases on_char_cases row (col % 3) with h | h | h <;>
        simp +decide [scan, h, hdig] <;>
        exact hrec
    · rcases on_char_cases row (col % 3) with h | h | h
      · exact absurd h hon
      · rw [h] at heq
        subst heq
        simp +decide [scan, h, hdig]
        exact ih (col + 1) _ (by simp only [List.length_cons] at hlen; omega) hshift
      · rw [h] at heq
        subst heq
        simp +decide [scan, h, hdig]
        exact ih (col + 1) _ (by simp only [List.length_cons] at hlen; omega) hshift

theorem scan_untouched (row : Nat) (line : List Char) :
    ∀ (col : Nat) (reg : List Nat) (j : Nat),
      col + line.length ≤ 3 * j →
      ((scan row line col reg).1).getD j 0 = reg.getD j 0 := by
  induction line with
  | nil =>
    intro col reg j _
    simp [scan]
  | cons ch rest ih =>
    intro col reg j hle
    simp only [List.length_cons] at hle
    have hdig : col / 3 ≠ j := by omega
    have hrec := ih (col + 1) reg j (by omega)
    simp only [scan]
    split_ifs with h1 h2 h3 h4 h5
    · rfl
    · rfl
    · exact hrec
    · rw [ih (col + 1) _ j (by omega)]
      simp [List.getD, List.getElem?_set_ne hdig]
    · rfl
    · exact hrec

theorem read_register_buffer (reg : List Nat) (j : Nat) (hj : j < 9) :
    (read_register reg).2.1.getD j ' ' = read_register_digit (reg.getD j 0) := by
  unfold read_register
  dsimp only
  rcases hb : (List.range 9).filter
      (fun i => read_register_digit (reg.getD i 0) == '?') with _ | ⟨a, _ | ⟨b, t⟩⟩ <;>
    simp [List.getD, List.getElem?_map, List.getElem?_range, hj]

/-- C9: a line shorter than 27 characters whose characters are all
valid for their grid positions scans without error; the scan leaves
every register slot whose digit cell starts at or beyond the end of the
line untouched; and at entry completion a slot still holding pattern 0
decodes to the `'?'` placeholder. -/
theorem short_line_illegible :
    (∀ (row : Nat) (line : List Char) (reg : List Nat),
      line.length < 27 →
      (∀ i, i < line.length → valid_at row i (line.getD i ' ')) →
      (scan row line 0 reg).2 = none) ∧
    (∀ (row : Nat) (line : List Char) (reg : List Nat) (j : Nat),
      line.length ≤ 3 * j →
      ((scan row line 0 reg).1).getD j 0 = reg.getD j 0) ∧
    (∀ (reg : List Nat) (j : Nat), j < 9 → reg.getD j 0 = 0 →
      (read_register reg).2.1.getD j ' ' = '?') := by
  refine ⟨?_, ?_, ?_⟩
  · intro row line reg hlen hvalid
    refine scan_no_error row line 0 reg (by omega) ?_
    intro i hi
    simpa using hvalid i hi
  · intro row line reg j hle
    exact scan_untouched row line 0 reg j (by omega)
  · intro reg j hj h0
    rw [read_register_buffer reg j hj, h0]
    decide

/-- Witness for C9: a 3-character row-1 line scans cleanly, slot 8 is
untouched, and an all-zero register decodes slot 8 to `'?'`. -/
theorem short_line_illegible_witness :
    (scan 1 (String.toList "  |") 0 (List.replicate 9 0)).2 = none ∧
    ((scan 1 (String.toList "  |") 0 (List.replicate 9 0)).1).getD 8 0 =
      (List.replicate 9 0).getD 8 0 ∧
    (read_register (List.replicate 9 0)).2.1.getD 8 ' ' = '?' :=
  ⟨short_line_illegible.1 1 (String.toList "  |") (List.replicate 9 0) (by decide)
      (by decide),
   short_line_illegible.2.1 1 (String.toList "  |") (List.replicate 9 0) 8 (by decide),
   short_line_illegible.2.2 (List.replicate 9 0) 8 (by decide) (by decide)⟩

theorem filter_eq_singleton_of (p : Nat → Bool) (i : Nat) :
    ∀ (l : List Nat), l.Nodup → i ∈ l → p i = true →
      (∀ j ∈ l, p j = true → j = i) → l.filter p = [i] := by
  intro l
  induction l with
  | nil => intro _ hi; cases hi
  | cons a tl ih =>
    intro hnd hi hpi huniq
    rw [List.nodup_cons] at hnd
    by_cases hpa : p a = true
    · have ha : a = i := huniq a (by simp) hpa
      subst ha
      rw [List.filter_cons_of_pos hpa]
      have hnil : tl.filter p = [] := by
        rw [List.filter_eq_nil_iff]
        intro j hj hpj
        have hje := huniq j (by simp [hj]) hpj
        subst hje
        exact absurd hj hnd.1
      rw [hnil]
    · have ha : a ≠ i := fun he => hpa (he ▸ hpi)
      have hi' : i ∈ tl := by
        rcases List.mem_cons.mp hi with h | h
        · exact absurd h.symm ha
        · exact h
      rw [List.filter_cons_of_neg (by simpa using hpa)]
      exact ih hnd.2 hi' hpi (fun j hj hpj => huniq j (List.mem_cons.mpr (Or.inr hj)) hpj)

theorem read_register_all_good (reg : List Nat)
    (h : ∀ i, i < 9 → read_register_digit (reg.getD i 0) ≠ '?') :
    read_register reg =
      (true, (List.range 9).map (fun i => read_register_digit (reg.getD i 0)), []) := by
  have hnil : (List.range 9).filter
      (fun i => read_register_digit (reg.getD i 0) == '?') = [] := by
    rw [List.filter_eq_nil_iff]
    intro j hj
    simp only [beq_iff_eq]
    exact h j (by simpa using hj)
  unfold read_register
  rw [hnil]

theorem read_register_one_bad (reg : List Nat) (i : Nat) (hi : i < 9)
    (hbad : read_register_digit (reg.getD i 0) = '?')
    (huniq : ∀ j, j < 9 → read_register_digit (reg.getD j 0) = '?' → j = i) :
    read_register reg =
      (false, (List.range 9).map (fun k => read_register_digit (reg.getD k 0)),
        (find_register_digit_close_matches (reg.getD i 0)).map
          (fun d =>
            ((List.range 9).map (fun k => read_register_digit (reg.getD k 0))).set i d)) := by
  have hone : (List.range 9).filter
      (fun k => read_register_digit (reg.getD k 0) == '?') = [i] := by
    refine filter_eq_singleton_of _ i (List.range 9) (List.nodup_range 9)
      (by simpa using hi) (by simpa using hbad) ?_
    intro j hj hpj
    exact huniq j (by simpa using hj) (by simpa using hpj)
  unfold read_register
  rw [hone]

theorem read_register_two_bad (reg : List Nat) (i j : Nat) (hij : i ≠ j)
    (hi : i < 9) (hj : j < 9)
    (hbi : read_register_digit (reg.getD i 0) = '?')
    (hbj : read_register_digit (reg.getD j 0) = '?') :
    read_register reg =
      (false, (List.range 9).map (fun k => read_register_digit (reg.getD k 0)), []) := by
  have hmi : i ∈ (List.range 9).filter
      (fun k => read_register_digit (reg.getD k 0) == '?') := by
    rw [List.mem_filter]
    exact ⟨by simpa using hi, by simpa using hbi⟩
  have hmj : j ∈ (List.range 9).filter
      (fun k => read_register_digit (reg.getD k 0) == '?') := by
    rw [List.mem_filter]
    exact ⟨by simpa using hj, by simpa using hbj⟩
  unfold read_register
  rcases hb : (List.range 9).filter
      (fun k => read_register_digit (reg.getD k 0) == '?') with _ | ⟨a, _ | ⟨b, t⟩⟩
  · rw [hb] at hmi
    cases hmi
  · rw [hb] at hmi hmj
    simp at hmi hmj
    exact absurd (hmi.trans hmj.symm) hij
  · rfl

theorem process_line_separator (p : Parser) (line : List Char)
    (hskip : p.skip = false) (hrow : p.line_number % 4 = 3)
    (hscan : (scan 3 line 0 p.register).2 = none) :
    (process_line p line).2 =
      (if (read_register (scan 3 line 0 p.register).1).1
       then Status.Success (read_register (scan 3 line 0 p.register).1).2.1
       else Status.BadDigits (read_register (scan 3 line 0 p.register).1).2.1
              (read_register (scan 3 line 0 p.register).1).2.2) := by
  rcases hsc : scan 3 line 0 p.register with ⟨reg1, o⟩
  rw [hsc] at hscan
  simp only at hscan
  subst hscan
  simp [process_line, hrow, hskip, hsc]

/-- C1: on a separator line (row 3), reached with the skip flag clear
and scanned without a character error: with no illegible register slot
the call returns `Success` on the 9 decoded digits in position order;
with exactly one illegible slot it returns `BadDigits` whose account
number carries `'?'` at that slot and whose alternates substitute, in
order, each close match of that slot's pattern at that position; with
two or more illegible slots it returns `BadDigits` with no
alternates. -/
theorem separator_line_decode (p : Parser) (line : List Char)
    (hskip : p.skip = false) (hrow : p.line_number % 4 = 3)
    (hscan : (scan 3 line 0 p.register).2 = none) :
    ((∀ i, i < 9 →
        read_register_digit ((scan 3 line 0 p.register).1.getD i 0) ≠ '?') →
      (process_line p line).2 =
        Status.Success ((List.range 9).map (fun k =>
          read_register_digit ((scan 3 line 0 p.register).1.getD k 0)))) ∧
    (∀ i, i < 9 →
      read_register_digit ((scan 3 line 0 p.register).1.getD i 0) = '?' →
      (∀ j, j < 9 →
        read_register_digit ((scan 3 line 0 p.register).1.getD j 0) = '?' → j = i) →
      (process_line p line).2 =
        Status.BadDigits
          ((List.range 9).map (fun k =>
            read_register_digit ((scan 3 line 0 p.register).1.getD k 0)))
          ((find_register_digit_close_matches ((scan 3 line 0 p.register).1.getD i 0)).map
            (fun d => ((List.range 9).map (fun k =>
              read_register_digit ((scan 3 line 0 p.register).1.getD k 0))).set i d))) ∧
    (∀ i j, i ≠ j → i < 9 → j < 9 →
      read_register_digit ((scan 3 line 0 p.register).1.getD i 0) = '?' →
      read_register_digit ((scan 3 line 0 p.register).1.getD j 0) = '?' →
      (process_line p line).2 =
        Status.BadDigits
          ((List.range 9).map (fun k =>
            read_register_digit ((scan 3 line 0 p.register).1.getD k 0))) []) := by
  refine ⟨?_, ?_, ?_⟩
  · intro hall
    rw [process_line_separator p line hskip hrow hscan,
      read_register_all_good _ hall]
    rfl
  · intro i hi hbad huniq
    rw [process_line_separator p line hskip hrow hscan,
      read_register_one_bad _ i hi hbad huniq]
    rfl
  · intro i j hij hi hj hbi hbj
    rw [process_line_separator p line hskip hrow hscan,
      read_register_two_bad _ i j hij hi hj hbi hbj]
    rfl

/-- Witness for C1: a parser whose register holds the pattern of `'0'`
nine times, fed the empty separator line, succeeds. -/
theorem separator_line_decode_witness :
    (process_line ⟨List.replicate 9 0b01111011, 3, false⟩ []).2 =
      Status.Success ((List.range 9).map (fun k =>
        read_register_digit ((scan 3 [] 0 (List.replicate 9 0b01111011)).1.getD k 0))) :=
  (separator_line_decode ⟨List.replicate 9 0b01111011, 3, false⟩ []
    rfl (by decide) (by decide)).1 (by decide)

theorem digit_alternate (c : Char) (h : c ∈ digit_chars) :
    alternate_digits c = some (spec_alt_table c) := by
  fin_cases h <;> decide

theorem spec_alt_table_all_digits (c : Char) (h : c ∈ digit_chars) :
    (spec_alt_table c).all Char.isDigit = true := by
  fin_cases h <;> decide

theorem all_digit_set (s : List Char) (hs : s.all Char.isDigit = true)
    (a : Char) (ha : a.isDigit = true) (n : Nat) :
    (s.set n a).all Char.isDigit = true := by
  rw [List.all_eq_true] at hs ⊢
  intro x hx
  rcases List.mem_or_eq_of_mem_set hx with h | h
  · exact hs x h
  · subst h
    exact ha

theorem subst_candidates_digits (s : List Char) (hdig : s.all Char.isDigit = true) (n : Nat) :
    ∀ (alts : List Char), alts.all Char.isDigit = true →
      subst_candidates s n alts = some (
        (alts.filter (fun alt =>
          match is_checksum_valid (s.set n alt) with
          | some true => true
          | _ => false)).map (fun alt => s.set n alt)) := by
  intro alts
  induction alts with
  | nil =>
    intro _
    simp [subst_candidates]
  | cons a rest ih =>
    intro hall
    rw [List.all_cons, Bool.and_eq_true] at hall
    have hcd : (s.set n a).all Char.isDigit = true := all_digit_set s hdig a hall.1 n
    have hb := is_checksum_valid_digits _ hcd
    cases hbv : (if (s.set n a).length = 9
        then decide (spec_weighted_sum (s.set n a) % 11 = 0) else false) with
    | false =>
      rw [hbv] at hb
      simp only [subst_candidates, hb, List.filter_cons]
      rw [ih hall.2]
      simp [hb]
    | true =>
      rw [hbv] at hb
      simp only [subst_candidates, hb, List.filter_cons]
      rw [ih hall.2]
      simp [hb]

theorem find_adjacent_go_digits (s : List Char) (hlen : s.length = 9)
    (hdig : s.all Char.isDigit = true) :
    ∀ (l : List Nat), (∀ n ∈ l, n < 9) →
      find_adjacent_go s l = some (l.flatMap (fun n =>
        ((spec_alt_table (s.getD n ' ')).filter (fun alt =>
          match is_checksum_valid (s.set n alt) with
          | some true => true
          | _ => false)).map (fun alt => s.set n alt))) := by
  intro l
  induction l with
  | nil =>
    intro _
    simp [find_adjacent_go]
  | cons n rest ih =>
    intro hl
    have hn : n < 9 := hl n (by simp)
    have hget : s.getD n ' ' ∈ s := by
      rw [List.getD_eq_getElem s ' ' (by omega)]
      exact List.getElem_mem _
    have hgd : (s.getD n ' ').isDigit = true := by
      rw [List.all_eq_true] at hdig
      exact hdig _ hget
    have hmem := digit_mem _ hgd
    have halt := digit_alternate _ hmem
    have htab := spec_alt_table_all_digits _ hmem
    simp only [find_adjacent_go, halt]
    rw [subst_candidates_digits s hdig n _ htab]
    rw [ih (fun m hm => hl m (by simp [hm]))]
    simp [List.flatMap_cons]

/-- C3: on every 9-character ASCII-digit string, `find_adjacent`
returns (without panicking) exactly the spec's candidate list: each of
the 9 positions in left-to-right order, each table alternate in table
order, kept iff `is_checksum_valid` holds for the substituted string,
position-major and without deduplication. -/
theorem find_adjacent_refines_spec (s : List Char) (hlen : s.length = 9)
    (hdig : s.all Char.isDigit = true) :
    find_adjacent s = some (spec_find_adjacent s) := by
  have hascii : s.all rust_is_ascii = true := by
    rw [List.all_eq_true] at hdig ⊢
    intro c hc
    have hm := digit_mem c (hdig c hc)
    fin_cases hm <;> decide
  unfold find_adjacent
  rw [if_pos ⟨hlen, hascii⟩]
  unfold spec_find_adjacent
  exact find_adjacent_go_digits s hlen hdig (List.range 9) (fun n hn => by simpa using hn)

/-- Witness for C3, at the concrete input "723456789". -/
theorem find_adjacent_refines_spec_witness :
    find_adjacent (String.toList "723456789") =
      some (spec_find_adjacent (String.toList "723456789")) :=
  find_adjacent_refines_spec (String.toList "723456789") (by decide) (by decide)

theorem process_line_line_number (p : Parser) (l : List Char) :
    (process_line p l).1.line_number = p.line_number + 1 := by
  unfold process_line
  dsimp only
  split
  · rfl
  · split <;> (try split) <;> rfl

theorem process_line_status_facts (p : Parser) (l : List Char) :
    (∀ acct, (process_line p l).2 = Status.Success acct → (p.line_number + 1) % 4 = 0) ∧
    (∀ acct alts, (process_line p l).2 = Status.BadDigits acct alts →
      (p.line_number + 1) % 4 = 0) ∧
    (∀ m ln c r, (process_line p l).2 = Status.Error m ln c r → ln = p.line_number + 1) := by
  unfold process_line
  dsimp only
  split
  · exact ⟨fun _ h => (nomatch h), fun _ _ h => (nomatch h), fun _ _ _ _ h => (nomatch h)⟩
  · split
    · refine ⟨fun _ h => (nomatch h), fun _ _ h => (nomatch h), fun m ln c r h => ?_⟩
      injection h with h1 h2 h3 h4
      exact h2.symm
    · split
      · exact ⟨fun _ h => (nomatch h), fun _ _ h => (nomatch h), fun _ _ _ _ h => (nomatch h)⟩
      · rename_i reg1 heq hlt
        refine ⟨fun _ _ => by omega, fun _ _ _ => by omega, fun m ln c r h => ?_⟩
        by_cases hrr : (read_register reg1).1 = true
        · rw [if_pos hrr] at h
          exact nomatch h
        · rw [if_neg hrr] at h
          exact nomatch h

/-- C10: every entry-level result the processor emits as `Success`,
`BadChecksum` or `BadDigits` carries the parser's line count at
emission time, which is the 1-based number of the entry's blank
separator line (a multiple of 4, hence the entry's 4th physical line,
not its first); the `Error` result carries the erroring line's own
number. -/
theorem emitted_line_numbers :
    ∀ (lines : List (List Char)) (p : Parser) (r : PResult) (p' : Parser)
      (rest : List (List Char)),
      processor_next p lines = ProcStep.emit r p' rest →
      (match r with
       | PResult.Success _ ln => ln = p'.line_number ∧ ln % 4 = 0
       | PResult.BadChecksum _ _ ln => ln = p'.line_number ∧ ln % 4 = 0
       | PResult.BadDigits _ _ ln => ln = p'.line_number ∧ ln % 4 = 0
       | PResult.Error _ ln _ _ => ln = p'.line_number) := by
  intro lines
  induction lines with
  | nil =>
    intro p r p' rest h
    simp [processor_next] at h
  | cons line rest0 ih =>
    intro p r p' rest h
    rw [processor_next] at h
    rcases hst : (process_line p line).2 with acct | ⟨acct, alts⟩ | ⟨m, ln, c, rw0⟩ | _
    · rw [hst] at h
      dsimp only at h
      rcases hcv : is_checksum_valid acct with _ | b
      · rw [hcv] at h
        exact (nomatch h)
      · rw [hcv] at h
        cases b
        · rcases hfa : find_adjacent acct with _ | alts
          · rw [hfa] at h
            exact (nomatch h)
          · rw [hfa] at h
            injection h with h1 h2 h3
            subst h1
            subst h2
            dsimp only
            refine ⟨rfl, ?_⟩
            rw [process_line_line_number p line]
            exact (process_line_status_facts p line).1 acct hst
        · injection h with h1 h2 h3
          subst h1
          subst h2
          dsimp only
          refine ⟨rfl, ?_⟩
          rw [process_line_line_number p line]
          exact (process_line_status_facts p line).1 acct hst
    · rw [hst] at h
      dsimp only at h
      rcases hfv : filter_valid alts with _ | f
      · rw [hfv] at h
        exact (nomatch h)
      · rw [hfv] at h
        injection h with h1 h2 h3
        subst h1
        subst h2
        dsimp only
        refine ⟨rfl, ?_⟩
        rw [process_line_line_number p line]
        exact (process_line_status_facts p line).2.1 acct alts hst
    · rw [hst] at h
      dsimp only at h
      injection h with h1 h2 h3
      subst h1
      subst h2
      dsimp only
      rw [process_line_line_number p line]
      exact (process_line_status_facts p line).2.2 m ln c rw0 hst
    · rw [hst] at h
      dsimp only at h
      exact ih (process_line p line).1 r p' rest h

/-- Witness for C10: the all-zeros entry is emitted as a `Success`
whose line number 4 is the separator line's number. -/
theorem emitted_line_numbers_witness :
    (4 : Nat) = (⟨List.replicate 9 123, 4, false⟩ : Parser).line_number ∧ (4 : Nat) % 4 = 0 :=
  emitted_line_numbers (entry_lines '0') Parser.new
    (PResult.Success (List.replicate 9 '0') 4) ⟨List.replicate 9 123, 4, false⟩ []
    (by decide)

end BankOcr
